import Mathlib

/-!
Verification of the commit-message rule engine, versioning-strategy classifier,
signoff detection, and configuration synthesizer of `@savvy-web/commitlint`.

The TypeScript sources are shallowly embedded: strings are `String`/`List Char`,
the regular expressions of `config/plugins.ts` are embedded as executable
character-list scanners with JavaScript regex semantics (multiline `^`/`$`
anchors, `\s`, `.` excluding line terminators, case-insensitive matching via
ASCII lowercasing), filesystem probes are passed in as explicit function
arguments, and the commitlint rule functions become pure Lean functions.
-/

/- ===== Character classes (JavaScript regex semantics) ===== -/

/-- JavaScript line terminators: LF, CR, LS (U+2028), PS (U+2029).
These are the characters excluded by `.` and the positions recognised by the
multiline `^`/`$` anchors. -/
def isLineTerm (c : Char) : Bool :=
  c = '\n' || c = '\r' || c.toNat = 0x2028 || c.toNat = 0x2029

/-- The JavaScript `\s` character class (WhiteSpace plus LineTerminator). -/
def isJsSpace (c : Char) : Bool :=
  c = '\t' || c = '\n' || c.toNat = 11 || c.toNat = 12 || c = '\r' || c = ' ' ||
  c.toNat = 0xa0 || c.toNat = 0x1680 || (0x2000 ≤ c.toNat && c.toNat ≤ 0x200a) ||
  c.toNat = 0x2028 || c.toNat = 0x2029 || c.toNat = 0x202f || c.toNat = 0x205f ||
  c.toNat = 0x3000 || c.toNat = 0xfeff

/-- The JavaScript `\w` character class: `[A-Za-z0-9_]`. -/
def isWordChar (c : Char) : Bool :=
  c.isAlpha || c.isDigit || c = '_'

/-- The backtick character (U+0060). -/
def backtick : Char := Char.ofNat 96

/-- Tab or plain space, the `[\t ]` class used by the list patterns. -/
def isTabOrSpace (c : Char) : Bool :=
  c = '\t' || c = ' '

/- ===== Anchored / unanchored match scaffolding ===== -/

/-- Test `p` at every position that immediately follows a line terminator. -/
def lineStartScan (p : List Char → Bool) : List Char → Bool
  | [] => false
  | c :: rest => (isLineTerm c && p rest) || lineStartScan p rest

/-- Test `p` at every multiline `^` anchor position: the start of the string
and every position following a line terminator. -/
def anyLineStart (p : List Char → Bool) (s : List Char) : Bool :=
  p s || lineStartScan p s

/-- Test `p` at every position of the string (unanchored regex search). -/
def anySuffix (p : List Char → Bool) : List Char → Bool
  | [] => p []
  | c :: rest => p (c :: rest) || anySuffix p rest

/- ===== MARKDOWN_PATTERNS of config/plugins.ts ===== -/

/-- `headers: /^#{1,6}\s/m` tested at one anchor position: one to six `#`
characters followed by a `\s` character. -/
def headersAt (s : List Char) : Bool :=
  let n := (s.takeWhile (fun c => c = '#')).length
  decide (1 ≤ n) && decide (n ≤ 6) &&
    (match s.drop n with
     | c :: _ => isJsSpace c
     | [] => false)

/-- `bullets: /^[\t ]*[-*]\s/m` tested at one anchor position. -/
def bulletsAt (s : List Char) : Bool :=
  match s.dropWhile isTabOrSpace with
  | c :: d :: _ => (c = '-' || c = '*') && isJsSpace d
  | _ => false

/-- `numberedLists: /^[\t ]*\d+\.\s/m` tested at one anchor position. -/
def numberedAt (s : List Char) : Bool :=
  let rest := s.dropWhile isTabOrSpace
  let n := (rest.takeWhile Char.isDigit).length
  decide (1 ≤ n) &&
    (match rest.drop n with
     | '.' :: d :: _ => isJsSpace d
     | _ => false)

/-- `codeFences: /```/`: scan for three consecutive backticks, tracking the
current run length of backticks. -/
def codeFenceLoop : Nat → List Char → Bool
  | run, [] => decide (3 ≤ run)
  | run, c :: rest =>
      decide (3 ≤ run) ||
        (if c = backtick then codeFenceLoop (run + 1) rest else codeFenceLoop 0 rest)

/-- `bold: /(\*\*|__)[^*_]+(\*\*|__)/` tested at one position: an opening
`**` or `__`, at least one character that is neither `*` nor `_`, then a
closing `**` or `__` (opener and closer need not agree, exactly as in the
regex). -/
def boldAt (s : List Char) : Bool :=
  match s with
  | a :: b :: rest =>
      ((a = '*' && b = '*') || (a = '_' && b = '_')) &&
        (let run := rest.takeWhile (fun c => !(c = '*' || c = '_'))
         decide (1 ≤ run.length) &&
           (match rest.drop run.length with
            | x :: y :: _ => (x = '*' && y = '*') || (x = '_' && y = '_')
            | _ => false))
  | _ => false

/-- Helper for `links`: after `\](`, the regex needs `.+?\)`: one
non-line-terminator character, then a `)` reachable across
non-line-terminator characters. This seeks the closing parenthesis. -/
def seekParenClose : List Char → Bool
  | [] => false
  | c :: rest => if c = ')' then true else !(isLineTerm c) && seekParenClose rest

/-- Helper for `links`: the `.+?\)` part after the literal `(`: one mandatory
non-line-terminator character, then a `)` reachable across
non-line-terminator characters. -/
def parenBody : List Char → Bool
  | [] => false
  | c :: rest => !(isLineTerm c) && seekParenClose rest

/-- Helper for `links`: look for the `](` separator (possibly immediately),
crossing only non-line-terminator characters, such that a parenthesised body
follows. With full backtracking a failed `](` candidate can still be consumed
by `.+?`, which the first branch's recursive call reproduces. -/
def seekBracketParen : List Char → Bool
  | ']' :: '(' :: rest => parenBody rest || seekBracketParen ('(' :: rest)
  | c :: rest => !(isLineTerm c) && seekBracketParen rest
  | [] => false
termination_by s => s.length
decreasing_by
  all_goals simp [List.length]

/-- `links: /\[.+?\]\(.+?\)/` tested at one position: `[`, at least one
non-line-terminator character, `](`, at least one non-line-terminator
character, `)`. -/
def linkAt : List Char → Bool
  | '[' :: c :: rest => !(isLineTerm c) && seekBracketParen rest
  | _ => false

/-- `horizontalRules: /^[-*_]{3,}$/m` tested at one anchor position: three or
more characters from `[-*_]` up to the end of the line. -/
def hrAt (s : List Char) : Bool :=
  let run := s.takeWhile (fun c => c = '-' || c = '*' || c = '_')
  decide (3 ≤ run.length) &&
    (match s.drop run.length with
     | [] => true
     | c :: _ => isLineTerm c)

/-- `italic: /(?<!\w)\*[^*]+\*(?!\w)/` tested at one position (lookbehind
already checked by the caller): `*`, at least one non-`*` character, `*`, and
the next character (if any) is not a word character. -/
def italicAt (s : List Char) : Bool :=
  match s with
  | '*' :: rest =>
      (let run := rest.takeWhile (fun c => !(c = '*'))
       decide (1 ≤ run.length) &&
         (match rest.drop run.length with
          | '*' :: tail =>
              (match tail with
               | [] => true
               | d :: _ => !(isWordChar d))
          | _ => false))
  | _ => false

/-- Unanchored search for the italic pattern, tracking the previous character
for the `(?<!\w)` lookbehind. -/
def italicScan : Option Char → List Char → Bool
  | _, [] => false
  | prev, c :: rest =>
      ((match prev with
        | none => true
        | some p => !(isWordChar p)) && italicAt (c :: rest)) ||
        italicScan (some c) rest

/-- State of the inline-code counting automaton (`/`+"`[^`]+`"+`/g`). -/
inductive SpanState
  | outside
  | justOpened
  | inSpan
deriving DecidableEq

/-- Count the non-overlapping matches of the global regex for inline code
spans, exactly as `text.match(MARKDOWN_PATTERNS.inlineCode)` counts them: a
backtick opens a candidate span; a backtick immediately after an opener
re-opens (the empty span cannot match `[^`]+`); a backtick after at least one
span character closes a match and resumes scanning after it. -/
def inlineCodeLoop : SpanState → List Char → Nat
  | _, [] => 0
  | .outside, c :: rest =>
      if c = backtick then inlineCodeLoop .justOpened rest else inlineCodeLoop .outside rest
  | .justOpened, c :: rest =>
      if c = backtick then inlineCodeLoop .justOpened rest else inlineCodeLoop .inSpan rest
  | .inSpan, c :: rest =>
      if c = backtick then inlineCodeLoop .outside rest + 1 else inlineCodeLoop .inSpan rest

/-- Number of backtick-delimited inline code spans in a character list. -/
def inlineCodeCount (s : List Char) : Nat :=
  inlineCodeLoop .outside s

/- ===== detectMarkdown and the markdown rules of config/plugins.ts ===== -/

/-- `MARKDOWN_PATTERNS.headers.test(text)`. -/
def headersTest (s : List Char) : Bool := anyLineStart headersAt s

/-- `MARKDOWN_PATTERNS.bullets.test(text)`. -/
def bulletsTest (s : List Char) : Bool := anyLineStart bulletsAt s

/-- `MARKDOWN_PATTERNS.numberedLists.test(text)`. -/
def numberedTest (s : List Char) : Bool := anyLineStart numberedAt s

/-- `MARKDOWN_PATTERNS.codeFences.test(text)`. -/
def codeFencesTest (s : List Char) : Bool := codeFenceLoop 0 s

/-- `MARKDOWN_PATTERNS.bold.test(text)`. -/
def boldTest (s : List Char) : Bool := anySuffix boldAt s

/-- `MARKDOWN_PATTERNS.links.test(text)`. -/
def linksTest (s : List Char) : Bool := anySuffix linkAt s

/-- `MARKDOWN_PATTERNS.horizontalRules.test(text)`. -/
def hrTest (s : List Char) : Bool := anyLineStart hrAt s

/-- `MARKDOWN_PATTERNS.italic.test(text)` (a pattern that `detectMarkdown`
never consults). -/
def italicTest (s : List Char) : Bool := italicScan none s

/-- Result record of `detectMarkdown`. -/
structure MarkdownResult where
  hasMarkdown : Bool
  patterns : List String
deriving DecidableEq

/-- `detectMarkdown` of `config/plugins.ts`: test each consulted pattern in
source order, collecting the pushed category strings; inline code is flagged
only when more than two spans occur. -/
def detectMarkdown (text : String) : MarkdownResult :=
  let s := text.data
  let detected : List String :=
    (if headersTest s then ["headers (#)"] else []) ++
    (if bulletsTest s then ["bullet lists (- or *)"] else []) ++
    (if numberedTest s then ["numbered lists (1.)"] else []) ++
    (if codeFencesTest s then ["code fences (```)"] else []) ++
    (if boldTest s then ["bold (**text**)"] else []) ++
    (if linksTest s then ["links ([text](url))"] else []) ++
    (if hrTest s then ["horizontal rules (---)"] else []) ++
    (if 2 < inlineCodeCount s then ["excessive inline code (`code`)"] else [])
  { hasMarkdown := decide (0 < detected.length), patterns := detected }

/-- Rule `silk/body-no-markdown`. A missing (`none`) or empty body is
vacuously valid, mirroring the `if (!body)` guard. -/
def bodyNoMarkdown (body : Option String) : Bool × String :=
  match body with
  | none => (true, "")
  | some b =>
      if b = "" then (true, "")
      else
        let r := detectMarkdown b
        if r.hasMarkdown then
          (false, "body contains markdown formatting: " ++ String.intercalate ", " r.patterns)
        else (true, "")

/-- Rule `silk/subject-no-markdown`. -/
def subjectNoMarkdown (subject : Option String) : Bool × String :=
  match subject with
  | none => (true, "")
  | some b =>
      if b = "" then (true, "")
      else
        let r := detectMarkdown b
        if r.hasMarkdown then
          (false, "subject contains markdown formatting: " ++ String.intercalate ", " r.patterns)
        else (true, "")

/- ===== signedOffBy of config/plugins.ts ===== -/

/-- The lowercase form of the literal part of `/^signed-off-by:\s*.+$/im`. -/
def signoffTargetLower : List Char := "signed-off-by:".data

/-- One anchored attempt of `/^signed-off-by:\s*.+$/im` at a `^` position:
a case-insensitive match of `signed-off-by:` (14 characters), then `\s*`,
then `.+`, then the multiline `$`. Since every line terminator is in `\s`
and every other character matches `.`, the `\s*.+$` tail succeeds exactly
when some non-line-terminator character remains after skipping leading line
terminators. -/
def signoffAt (s : List Char) : Bool :=
  ((s.take 14).map Char.toLower == signoffTargetLower) &&
    !((s.drop 14).dropWhile isLineTerm).isEmpty

/-- `signoffPattern.test(raw)`: the multiline case-insensitive regex search. -/
def signoffMatches (raw : String) : Bool :=
  anyLineStart signoffAt raw.data

/-- Rule `silk/signed-off-by` of `config/plugins.ts`: missing or empty raw
text fails; otherwise the regex decides. -/
def signedOffBy (raw : Option String) : Bool × String :=
  match raw with
  | none => (false, "message must be signed off")
  | some r =>
      if r = "" then (false, "message must be signed off")
      else if signoffMatches r then (true, "")
      else (false, "message must be signed off")

/- ===== detection/versioning.ts: the strategy classifier ===== -/

/-- `publishConfig.access` values (`PackageAccess` of
`detection/versioning.ts`). -/
inductive PackageAccess
  | public
  | restricted
deriving DecidableEq

/-- Workspace package metadata relevant to publishing
(`WorkspacePackageInfo` of `detection/versioning.ts`). -/
structure WorkspacePackageInfo where
  name : String
  version : String
  path : String
  «private» : Bool
  hasPublishConfig : Bool
  access : Option PackageAccess
  targetCount : Nat
deriving DecidableEq

/-- `ChangesetConfig` of `detection/versioning.ts`. -/
structure ChangesetConfig where
  fixed : Option (List (List String))
  linked : Option (List (List String))
deriving DecidableEq

/-- `VersioningStrategyType`. -/
inductive VersioningStrategyType
  | single
  | fixedGroup
  | independent
deriving DecidableEq

/-- `VersioningStrategy` result record. -/
structure VersioningStrategy where
  type : VersioningStrategyType
  needsPerPackageTags : Bool
  allPackages : List WorkspacePackageInfo
  publishablePackages : List WorkspacePackageInfo
  changesetConfig : Option ChangesetConfig
  fixedGroup : Option (List String)
  isMonorepo : Bool
  isRootPrivate : Bool
  explanation : String
deriving DecidableEq

/-- `isPackagePublishable`: `pkg.hasPublishConfig || pkg.targetCount > 0 ||
!pkg.private`. -/
def isPackagePublishable (pkg : WorkspacePackageInfo) : Bool :=
  pkg.hasPublishConfig || decide (0 < pkg.targetCount) || !pkg.«private»

/-- `filterPublishablePackages`. -/
def filterPublishablePackages (packages : List WorkspacePackageInfo) : List WorkspacePackageInfo :=
  packages.filter (fun pkg => pkg.hasPublishConfig || decide (0 < pkg.targetCount) || !pkg.«private»)

/-- `findContainingFixedGroup`: return the first group of
`config.fixed` that contains every publishable name (the JS `Set` wrapper
around the names does not change the `every` test). -/
def findContainingFixedGroup (publishableNames : List String)
    (config : Option ChangesetConfig) : Option (List String) :=
  match config with
  | none => none
  | some cfg =>
      match cfg.fixed with
      | none => none
      | some groups => groups.find? (fun g => publishableNames.all (fun n => g.contains n))

/-- The pure core of `detectVersioningStrategy` once a project root has been
resolved: the inputs read from the filesystem (workspace packages, changeset
config, root-manifest privacy) are passed in explicitly. -/
def classifyVersioningStrategy (allPackages : List WorkspacePackageInfo)
    (changesetConfig : Option ChangesetConfig) (rootPrivate : Bool) : VersioningStrategy :=
  let publishablePackages := filterPublishablePackages allPackages
  let isMonorepo := decide (1 < allPackages.length)
  if publishablePackages.length ≤ 1 then
    { type := VersioningStrategyType.single
      needsPerPackageTags := false
      allPackages := allPackages
      publishablePackages := publishablePackages
      changesetConfig := changesetConfig
      fixedGroup := none
      isMonorepo := isMonorepo
      isRootPrivate := rootPrivate
      explanation :=
        match publishablePackages with
        | [] => "No publishable packages found"
        | p :: _ => "Single publishable package: " ++ p.name }
  else
    let publishableNames := publishablePackages.map (fun p => p.name)
    match findContainingFixedGroup publishableNames changesetConfig with
    | some g =>
        { type := VersioningStrategyType.fixedGroup
          needsPerPackageTags := false
          allPackages := allPackages
          publishablePackages := publishablePackages
          changesetConfig := changesetConfig
          fixedGroup := some g
          isMonorepo := isMonorepo
          isRootPrivate := rootPrivate
          explanation :=
            "All " ++ toString publishablePackages.length ++
              " publishable packages are in a fixed version group" }
    | none =>
        { type := VersioningStrategyType.independent
          needsPerPackageTags := true
          allPackages := allPackages
          publishablePackages := publishablePackages
          changesetConfig := changesetConfig
          fixedGroup := none
          isMonorepo := isMonorepo
          isRootPrivate := rootPrivate
          explanation :=
            toString publishablePackages.length ++
              " publishable packages with independent/linked versioning" }

/-- `detectVersioningStrategy`: when `findProjectRoot` yields no root the
fixed degraded record is returned; otherwise the classifier runs on the data
read from the root. -/
def detectVersioningStrategy
    (rootData : Option (List WorkspacePackageInfo × Option ChangesetConfig × Bool)) :
    VersioningStrategy :=
  match rootData with
  | none =>
      { type := VersioningStrategyType.single
        needsPerPackageTags := false
        allPackages := []
        publishablePackages := []
        changesetConfig := none
        fixedGroup := none
        isMonorepo := false
        isRootPrivate := false
        explanation := "No project root found" }
  | some (allPackages, changesetConfig, rootPrivate) =>
      classifyVersioningStrategy allPackages changesetConfig rootPrivate

/-- `s.startsWith(p)` of JavaScript, as a kernel-computable list
comparison. -/
def strStartsWith (s p : String) : Bool :=
  s.data.take p.data.length == p.data

/-- `getPackageTag` of `detection/versioning.ts`. -/
def getPackageTag (packageName : String) (version : String)
    (strategy : VersioningStrategy) : String :=
  if !strategy.needsPerPackageTags then "v" ++ version
  else if strStartsWith packageName "@" then packageName ++ "@" ++ version
  else packageName ++ "@v" ++ version

/- ===== detection/utils.ts and detection/dco.ts ===== -/

/-- `safelyFindProjectRoot` of `detection/utils.ts`: the throwing
`findProjectRoot` of workspace-tools is modelled as an `Except`-valued
function; the `try/catch` maps a thrown error to `none`. -/
def safelyFindProjectRoot (findProjectRoot : String → Except String String)
    (cwd : String) : Option String :=
  match findProjectRoot cwd with
  | Except.ok root => some root
  | Except.error _ => none

/-- `path.join(dir, name)` for the simple two-segment uses in this module. -/
def pathJoin (a b : String) : String := a ++ "/" ++ b

/-- `detectDCO` of `detection/dco.ts`: resolve the repo root (soft-failing to
`null`), fall back to `cwd` when no root was found, and probe for a file
named `DCO` in the chosen directory. The filesystem probe `existsSync` is
passed in explicitly. -/
def detectDCO (findProjectRoot : String → Except String String)
    (existsSync : String → Bool) (cwd : String) : Bool :=
  let repoRoot := safelyFindProjectRoot findProjectRoot cwd
  let searchDir := repoRoot.getD cwd
  existsSync (pathJoin searchDir "DCO")

/- ===== config/factory.ts: the configuration synthesizer ===== -/

/-- Modelled from the spec: `config/rules.ts` (defining `COMMIT_TYPES`) is
absent from `src/`; the list is reconstructed from the `CommitType`-keyed
emoji maps of `prompt/emojis` and the documented extended type set. Its exact
contents do not influence any claim proved here. -/
def COMMIT_TYPES : List String :=
  ["ai", "feat", "fix", "docs", "style", "refactor", "perf", "test",
   "build", "ci", "chore", "revert", "release"]

/-- A commitlint rule entry value: severity, applicability, optional value. -/
inductive RuleValue
  | levelOnly (severity : Nat)
  | bare (severity : Nat) (applicability : String)
  | withNat (severity : Nat) (applicability : String) (value : Nat)
  | withStrings (severity : Nat) (applicability : String) (values : List String)
deriving DecidableEq

/-- `prompt.settings` emitted by `createConfig`. -/
structure PromptSettings where
  enableMultipleScopes : Bool
  scopeEnumSeparator : String
deriving DecidableEq

/-- The configuration object assembled by `createConfig` (the plugin list is
a constant and is omitted). Rules are an insertion-ordered association
list, mirroring the JS object literal plus conditional assignments. -/
structure SilkUserConfig where
  «extends» : List String
  rules : List (String × RuleValue)
  promptSettings : PromptSettings
deriving DecidableEq

/-- `ResolvedConfigOptions` (after Zod parsing): the fields `createConfig`
reads. `cwd` only selects the filesystem inputs, which are passed to the
embedding explicitly; `releaseFormat` and `emojis` are not read by
`createConfig` and are omitted. -/
structure ResolvedConfigOptions where
  dco : Option Bool
  scopes : Option (List String)
  additionalScopes : Option (List String)
  bodyMaxLineLength : Nat
  noMarkdown : Bool
deriving DecidableEq

/-- First-occurrence deduplication, as `[...new Set(xs)]` produces. -/
def dedupFirst : List String → List String
  | [] => []
  | x :: xs => x :: (dedupFirst xs).filter (fun y => y != x)

/-- Lexicographic code-point comparison, the order `Array.prototype.sort()`
uses on strings (UTF-16 code-unit order; identical on the code points in
play here). -/
def charListLe : List Char → List Char → Bool
  | [], _ => true
  | _ :: _, [] => false
  | a :: as, b :: bs =>
      if a.toNat < b.toNat then true
      else if b.toNat < a.toNat then false
      else charListLe as bs

/-- String comparison used by the sort. -/
def strLe (a b : String) : Bool := charListLe a.data b.data

/-- Insert into a sorted list (ascending string order). -/
def insertSorted (x : String) : List String → List String
  | [] => [x]
  | y :: ys => if strLe x y then x :: y :: ys else y :: insertSorted x ys

/-- Sort strings ascending, as `Array.prototype.sort()` does for the
deduplicated (hence duplicate-free) scope lists. -/
def sortStrings (xs : List String) : List String :=
  xs.foldr insertSorted []

/-- `[...new Set(xs)].sort()`. -/
def dedupSort (xs : List String) : List String :=
  sortStrings (dedupFirst xs)

/-- `createConfig` of `config/factory.ts`. The two detector results
(`detectDCO(cwd)` and `detectScopes(cwd)`), which the source computes from
the filesystem strictly before assembling the rules, are passed in
explicitly. -/
def createConfig (options : ResolvedConfigOptions) (detectedDCO : Bool)
    (detectedScopes : List String) : SilkUserConfig :=
  let dco := options.dco.getD detectedDCO
  let scopes := options.scopes.getD detectedScopes
  let allScopes := dedupSort (scopes ++ options.additionalScopes.getD [])
  let rules0 : List (String × RuleValue) :=
    [("body-max-line-length", RuleValue.withNat 2 "always" options.bodyMaxLineLength),
     ("type-enum", RuleValue.withStrings 2 "always" COMMIT_TYPES),
     ("subject-case", RuleValue.levelOnly 0)]
  let rules1 :=
    if 0 < allScopes.length then
      rules0 ++ [("scope-enum", RuleValue.withStrings 2 "always" allScopes)]
    else rules0
  let rules2 :=
    if dco then rules1 ++ [("silk/signed-off-by", RuleValue.bare 2 "always")]
    else rules1
  let rules3 :=
    if options.noMarkdown then
      rules2 ++ [("silk/body-no-markdown", RuleValue.bare 2 "always"),
                 ("silk/subject-no-markdown", RuleValue.bare 2 "always")]
    else rules2
  { «extends» := ["@commitlint/config-conventional"]
    rules := rules3
    promptSettings := { enableMultipleScopes := true, scopeEnumSeparator := "," } }

/-- Modelled from the spec: the `COMMITLINT_SKIP_DCO` environment skip-signal
is handled in the options-resolution layer (`config/schema.ts`), which is
absent from `src/`; per the spec it forces `dco = false` unconditionally
before the synthesizer runs. -/
def applyEnvSkipDCO (envSkipDCO : Bool) (options : ResolvedConfigOptions) :
    ResolvedConfigOptions :=
  if envSkipDCO then { options with dco := some false } else options

/-- The synthesizer including the spec-modelled environment skip-signal. -/
def createConfigWithEnv (envSkipDCO : Bool) (options : ResolvedConfigOptions)
    (detectedDCO : Bool) (detectedScopes : List String) : SilkUserConfig :=
  createConfig (applyEnvSkipDCO envSkipDCO options) detectedDCO detectedScopes

/- ===== Concrete fixtures used by witnesses and counterexamples ===== -/

/-- A publishable scoped package `@s/a`. -/
def pkgA : WorkspacePackageInfo :=
  { name := "@s/a", version := "1.0.0", path := "/repo/packages/a",
    «private» := false, hasPublishConfig := false, access := none, targetCount := 0 }

/-- A publishable scoped package `@s/b`. -/
def pkgB : WorkspacePackageInfo :=
  { name := "@s/b", version := "2.0.0", path := "/repo/packages/b",
    «private» := false, hasPublishConfig := false, access := none, targetCount := 0 }

/-- A changeset config whose `fixed` list holds two groups that both contain
every publishable name: the exact pair and a strict superset. -/
def cfgTwoGroups : ChangesetConfig :=
  { fixed := some [["@s/a", "@s/b"], ["@s/a", "@s/b", "@s/c"]], linked := none }

/-- A changeset config with a single fixed group covering both packages. -/
def cfgOneGroup : ChangesetConfig :=
  { fixed := some [["@s/a", "@s/b"]], linked := none }

/-- A strategy record with per-package tags (Scenario C shape). -/
def stratIndependent : VersioningStrategy :=
  { type := VersioningStrategyType.independent, needsPerPackageTags := true,
    allPackages := [pkgA, pkgB], publishablePackages := [pkgA, pkgB],
    changesetConfig := none, fixedGroup := none, isMonorepo := true,
    isRootPrivate := true, explanation := "" }

/-- Resolved options with every detector-relevant field absent. -/
def optsDefault : ResolvedConfigOptions :=
  { dco := none, scopes := none, additionalScopes := none,
    bodyMaxLineLength := 300, noMarkdown := true }

/-- Resolved options with explicit scopes and additional scopes. -/
def optsScopes : ResolvedConfigOptions :=
  { dco := none, scopes := some ["api", "cli"],
    additionalScopes := some ["docs", "deps", "api"],
    bodyMaxLineLength := 300, noMarkdown := true }

/-- Resolved options with an explicit `dco: true` override. -/
def optsDcoTrue : ResolvedConfigOptions :=
  { dco := some true, scopes := none, additionalScopes := none,
    bodyMaxLineLength := 300, noMarkdown := true }

/- ===== Theorems ===== -/

/-- Claim C1 (code bug): contrary to the spec, the repo's own tests
("allows bullet lists with dash/asterisk") and its documentation ("Simple
unordered lists (- or *) are allowed for readability"), `detectMarkdown`
does flag lines starting with `-` or `*` followed by whitespace: on
`"- item\n- item2"` it reports the violation `bullet lists (- or *)` and the
`body-no-markdown` rule returns `(false, …)` instead of `(true, "")`. -/
theorem bodyNoMarkdown_flags_bullets :
    detectMarkdown "- item\n- item2" =
      { hasMarkdown := true, patterns := ["bullet lists (- or *)"] } ∧
    bodyNoMarkdown (some "- item\n- item2") =
      (false, "body contains markdown formatting: bullet lists (- or *)") ∧
    bulletsTest ("- item\n- item2").data = true := by
  refine ⟨by decide, ?_, by decide⟩
  decide

/-- Claim C10: an input whose only markdown-like content is single-asterisk
or single-underscore emphasis produces no violations — `detectMarkdown`
never consults the defined `italic` pattern (which does match such input),
and both markdown rules accept. -/
theorem detectMarkdown_italic_never_consulted :
    detectMarkdown "*emphasis*" = { hasMarkdown := false, patterns := [] } ∧
    detectMarkdown "_emphasis_" = { hasMarkdown := false, patterns := [] } ∧
    bodyNoMarkdown (some "*emphasis*") = (true, "") ∧
    bodyNoMarkdown (some "_emphasis_") = (true, "") ∧
    subjectNoMarkdown (some "*emphasis*") = (true, "") ∧
    subjectNoMarkdown (some "_emphasis_") = (true, "") ∧
    italicTest ("*emphasis*").data = true := by
  refine ⟨by decide, by decide, by decide, by decide, by decide, by decide, by decide⟩

/-- Claim C5: `getPackageTag` is total and pure; it returns `"v" + version`
whenever `needsPerPackageTags` is false (for any name), and otherwise
`name + "@" + version` for scoped names and `name + "@v" + version` for
unscoped names. -/
theorem getPackageTag_spec (name version : String) (strategy : VersioningStrategy) :
    (strategy.needsPerPackageTags = false →
      getPackageTag name version strategy = "v" ++ version) ∧
    (strategy.needsPerPackageTags = true → strStartsWith name "@" = true →
      getPackageTag name version strategy = name ++ "@" ++ version) ∧
    (strategy.needsPerPackageTags = true → strStartsWith name "@" = false →
      getPackageTag name version strategy = name ++ "@v" ++ version) := by
  unfold getPackageTag
  refine ⟨fun h => by simp [h], fun h hs => by simp [h, hs], fun h hs => by simp [h, hs]⟩

/-- Witness for C5: Scenario C, applied at the independent strategy. -/
theorem getPackageTag_spec_witness :
    getPackageTag "@s/a" "1.2.3" stratIndependent = "@s/a@1.2.3" ∧
    getPackageTag "pkg" "1.2.3" stratIndependent = "pkg@v1.2.3" ∧
    getPackageTag "pkg" "1.2.3"
        { stratIndependent with type := VersioningStrategyType.single,
                                needsPerPackageTags := false } = "v1.2.3" := by
  refine ⟨?_, ?_, ?_⟩
  · have h := (getPackageTag_spec "@s/a" "1.2.3" stratIndependent).2.1 rfl (by decide)
    simpa using h
  · have h := (getPackageTag_spec "pkg" "1.2.3" stratIndependent).2.2 rfl (by decide)
    simpa using h
  · have h := (getPackageTag_spec "pkg" "1.2.3"
      { stratIndependent with type := VersioningStrategyType.single,
                              needsPerPackageTags := false }).1 rfl
    simpa using h

/-- Claim C9: `detectMarkdown` reports `excessive inline code` exactly when
the number of backtick-delimited inline code spans exceeds two. -/
theorem detectMarkdown_inlineCode_iff (text : String) :
    "excessive inline code (`code`)" ∈ (detectMarkdown text).patterns ↔
      2 < inlineCodeCount text.data := by
  simp [detectMarkdown, List.mem_append, List.mem_ite_nil_right]

/-- Claim C4: every strategy the classifier produces satisfies the stated
invariants: publishable packages are among all packages, `fixedGroup` is set
exactly for the `fixed-group` type, `needsPerPackageTags` holds exactly for
the `independent` type, and at most one publishable package forces the
`single` type without per-package tags. -/
theorem detectVersioningStrategy_invariants
    (rootData : Option (List WorkspacePackageInfo × Option ChangesetConfig × Bool)) :
    (∀ p ∈ (detectVersioningStrategy rootData).publishablePackages,
        p ∈ (detectVersioningStrategy rootData).allPackages) ∧
    ((detectVersioningStrategy rootData).fixedGroup ≠ none ↔
        (detectVersioningStrategy rootData).type = VersioningStrategyType.fixedGroup) ∧
    ((detectVersioningStrategy rootData).needsPerPackageTags = true ↔
        (detectVersioningStrategy rootData).type = VersioningStrategyType.independent) ∧
    ((detectVersioningStrategy rootData).publishablePackages.length ≤ 1 →
        (detectVersioningStrategy rootData).type = VersioningStrategyType.single ∧
        (detectVersioningStrategy rootData).needsPerPackageTags = false) := by
  cases rootData with
  | none => decide
  | some data =>
      obtain ⟨pkgs, cfg, rp⟩ := data
      simp only [detectVersioningStrategy, classifyVersioningStrategy]
      split
      · exact ⟨fun p hp => List.mem_of_mem_filter hp, by simp, by simp,
          fun _ => ⟨rfl, rfl⟩⟩
      · rename_i h
        split
        · exact ⟨fun p hp => List.mem_of_mem_filter hp, by simp, by simp,
            fun hlen => absurd hlen h⟩
        · exact ⟨fun p hp => List.mem_of_mem_filter hp, by simp, by simp,
            fun hlen => absurd hlen h⟩

/-- Witness for C4: the invariants applied at a concrete single-package
workspace, discharging the cardinality hypothesis there. -/
theorem detectVersioningStrategy_invariants_witness :
    (detectVersioningStrategy (some ([pkgA], none, false))).publishablePackages.length ≤ 1 ∧
    (detectVersioningStrategy (some ([pkgA], none, false))).type =
      VersioningStrategyType.single := by
  have h := detectVersioningStrategy_invariants (some ([pkgA], none, false))
  exact ⟨by decide, (h.2.2.2 (by decide)).1⟩

/-- `findContainingFixedGroup` searches `cfg.fixed` (when present) with
`find?`. -/
theorem findContainingFixedGroup_eq (names : List String) (cfg : Option ChangesetConfig) :
    findContainingFixedGroup names cfg =
      (cfg.bind (fun c => c.fixed)).bind
        (fun groups => groups.find? (fun g => names.all (fun n => g.contains n))) := by
  cases cfg with
  | none => rfl
  | some c => cases hf : c.fixed <;> simp [findContainingFixedGroup, hf]

/-- Claim C3 (amended): with more than one publishable package, the
classifier returns `fixed-group` exactly when some fixed group contains
every publishable name; the returned `fixedGroup` is the first such group of
the `fixed` list (not an arbitrary superset group), it does contain every
publishable name, and otherwise the result is `independent` with
per-package tags. -/
theorem classifyVersioningStrategy_fixedGroup
    (allPackages : List WorkspacePackageInfo) (cfg : Option ChangesetConfig)
    (rootPrivate : Bool)
    (h : 1 < (filterPublishablePackages allPackages).length) :
    ((findContainingFixedGroup
        ((filterPublishablePackages allPackages).map (fun p => p.name)) cfg).isSome ↔
      ∃ groups, cfg.bind (fun c => c.fixed) = some groups ∧
        ∃ g ∈ groups,
          ∀ n ∈ (filterPublishablePackages allPackages).map (fun p => p.name), n ∈ g) ∧
    (∀ g, findContainingFixedGroup
        ((filterPublishablePackages allPackages).map (fun p => p.name)) cfg = some g →
      (classifyVersioningStrategy allPackages cfg rootPrivate).type =
          VersioningStrategyType.fixedGroup ∧
        (classifyVersioningStrategy allPackages cfg rootPrivate).needsPerPackageTags = false ∧
        (classifyVersioningStrategy allPackages cfg rootPrivate).fixedGroup = some g ∧
        ∀ n ∈ (filterPublishablePackages allPackages).map (fun p => p.name), n ∈ g) ∧
    (findContainingFixedGroup
        ((filterPublishablePackages allPackages).map (fun p => p.name)) cfg = none →
      (classifyVersioningStrategy allPackages cfg rootPrivate).type =
          VersioningStrategyType.independent ∧
        (classifyVersioningStrategy allPackages cfg rootPrivate).needsPerPackageTags = true ∧
        (classifyVersioningStrategy allPackages cfg rootPrivate).fixedGroup = none) := by
  have hnotle : ¬((filterPublishablePackages allPackages).length ≤ 1) := by omega
  refine ⟨?_, ?_, ?_⟩
  · rw [findContainingFixedGroup_eq]
    cases hf : cfg.bind (fun c => c.fixed) with
    | none => simp
    | some groups => simp [List.find?_isSome, List.all_eq_true]
  · intro g hg
    rw [findContainingFixedGroup_eq] at hg
    have hsup : ∀ n ∈ (filterPublishablePackages allPackages).map (fun p => p.name), n ∈ g := by
      cases hf : cfg.bind (fun c => c.fixed) with
      | none => rw [hf] at hg; simp at hg
      | some groups =>
          rw [hf] at hg
          have := List.find?_some (Option.some_bind .. ▸ hg)
          simpa [List.all_eq_true] using this
    rw [← findContainingFixedGroup_eq] at hg
    refine ⟨?_, ?_, ?_, hsup⟩ <;>
      simp [classifyVersioningStrategy, hnotle, hg]
  · intro hg
    refine ⟨?_, ?_, ?_⟩ <;>
      simp [classifyVersioningStrategy, hnotle, hg]

/-- Counterexample for C3 as stated: with two fixed groups that both contain
all publishable names, the classifier returns the first one, so the claim's
"returns `fixedGroup = G`" fails for the second superset group `G`, even
though that `G` is in the fixed list and contains every publishable name. -/
theorem classifyVersioningStrategy_fixedGroup_cex :
    (classifyVersioningStrategy [pkgA, pkgB] (some cfgTwoGroups) false).type =
        VersioningStrategyType.fixedGroup ∧
    (classifyVersioningStrategy [pkgA, pkgB] (some cfgTwoGroups) false).fixedGroup =
        some ["@s/a", "@s/b"] ∧
    (classifyVersioningStrategy [pkgA, pkgB] (some cfgTwoGroups) false).fixedGroup ≠
        some ["@s/a", "@s/b", "@s/c"] ∧
    ["@s/a", "@s/b", "@s/c"] ∈ [["@s/a", "@s/b"], ["@s/a", "@s/b", "@s/c"]] ∧
    cfgTwoGroups.fixed = some [["@s/a", "@s/b"], ["@s/a", "@s/b", "@s/c"]] ∧
    (∀ n ∈ (filterPublishablePackages [pkgA, pkgB]).map (fun p => p.name),
        n ∈ ["@s/a", "@s/b", "@s/c"]) ∧
    1 < (filterPublishablePackages [pkgA, pkgB]).length := by
  decide

/-- Witness for C3's amended theorem: Scenario B, a single covering fixed
group, discharging the cardinality hypothesis at a concrete input. -/
theorem classifyVersioningStrategy_fixedGroup_witness :
    (classifyVersioningStrategy [pkgA, pkgB] (some cfgOneGroup) false).type =
        VersioningStrategyType.fixedGroup ∧
    (classifyVersioningStrategy [pkgA, pkgB] (some cfgOneGroup) false).fixedGroup =
        some ["@s/a", "@s/b"] := by
  have h := (classifyVersioningStrategy_fixedGroup [pkgA, pkgB] (some cfgOneGroup) false
    (by decide)).2.1 ["@s/a", "@s/b"] (by decide)
  exact ⟨h.1, h.2.2.1⟩

/-- Claim C2 (amended): the emitted scope set is the deduplicated, sorted
union of `resolved.scopes ?? detectedScopes` (the workspace-detected scopes,
not the empty list) and `resolved.additionalScopes ?? []`; the `scope-enum`
rule is present exactly when that union is non-empty. -/
theorem createConfig_scopeEnum (options : ResolvedConfigOptions) (detectedDCO : Bool)
    (detectedScopes : List String) :
    List.lookup "scope-enum" (createConfig options detectedDCO detectedScopes).rules =
      (if 0 < (dedupSort ((options.scopes.getD detectedScopes) ++
            options.additionalScopes.getD [])).length then
        some (RuleValue.withStrings 2 "always"
          (dedupSort ((options.scopes.getD detectedScopes) ++
            options.additionalScopes.getD [])))
      else none) := by
  by_cases hs : 0 < (dedupSort ((options.scopes.getD detectedScopes) ++
      options.additionalScopes.getD [])).length <;>
    by_cases hd : options.dco.getD detectedDCO <;>
      by_cases hm : options.noMarkdown <;>
        simp [createConfig, hs, hd, hm, List.lookup]

/-- Counterexample for C2 as stated: with both scope fields absent but a
workspace whose detected scopes are `["foo"]`, the synthesized configuration
does emit a `scope-enum` rule restricted to the detected scopes — the scope
set is not empty. -/
theorem createConfig_scopeEnum_cex :
    optsDefault.scopes = none ∧
    optsDefault.additionalScopes = none ∧
    List.lookup "scope-enum" (createConfig optsDefault false ["foo"]).rules =
      some (RuleValue.withStrings 2 "always" ["foo"]) := by
  exact ⟨rfl, rfl, rfl⟩

/-- Claim C7: the effective dco flag is `envSkipDCO ? false :
(resolved.dco ?? detectedDCO)`, and the `silk/signed-off-by` rule entry with
severity 2, applicability `always` is emitted exactly when that flag is
true. The environment layer is spec-modelled (see `applyEnvSkipDCO`); the
emission logic is proved from `config/factory.ts`. -/
theorem createConfigWithEnv_dco (envSkipDCO : Bool) (options : ResolvedConfigOptions)
    (detectedDCO : Bool) (detectedScopes : List String) :
    List.lookup "silk/signed-off-by"
        (createConfigWithEnv envSkipDCO options detectedDCO detectedScopes).rules =
      (if (if envSkipDCO then false else options.dco.getD detectedDCO) then
        some (RuleValue.bare 2 "always")
      else none) := by
  cases envSkipDCO <;>
    by_cases hs : 0 < (dedupSort ((options.scopes.getD detectedScopes) ++
        options.additionalScopes.getD [])).length <;>
      by_cases hd : options.dco.getD detectedDCO <;>
        by_cases hm : options.noMarkdown <;>
          simp [createConfigWithEnv, applyEnvSkipDCO, createConfig, hs, hd, hm, List.lookup]

/-- Claim C6 (amended): `detectDCO` probes for the file `DCO` at the
resolved repository root when resolution succeeds, and falls back to probing
the invocation working directory (rather than returning false) when
resolution fails; the resolution error is swallowed, never propagated. -/
theorem detectDCO_soft_fallback (findProjectRoot : String → Except String String)
    (existsSync : String → Bool) (cwd : String) :
    (∀ root, findProjectRoot cwd = Except.ok root →
      detectDCO findProjectRoot existsSync cwd = existsSync (pathJoin root "DCO")) ∧
    (∀ e, findProjectRoot cwd = Except.error e →
      detectDCO findProjectRoot existsSync cwd = existsSync (pathJoin cwd "DCO")) := by
  constructor <;> intro x hx <;> simp [detectDCO, safelyFindProjectRoot, hx]

/-- Counterexample for C6 as stated: when the project root cannot be
resolved but the invocation directory contains a `DCO` file, `detectDCO`
returns `true`, not `false`. -/
theorem detectDCO_unresolvedRoot_cex :
    detectDCO (fun _ => Except.error "not in a git repository")
      (fun p => p == "/work/DCO") "/work" = true := by
  rfl

/-- Witness for C6's amended theorem: with a resolvable root, the probe is
made against the root (not the invocation directory). -/
theorem detectDCO_soft_fallback_witness :
    detectDCO (fun _ => Except.ok "/repo") (fun p => p == "/repo/DCO")
      "/repo/packages/a" = true := by
  have h := (detectDCO_soft_fallback (fun _ => Except.ok "/repo")
    (fun p => p == "/repo/DCO") "/repo/packages/a").1 "/repo" rfl
  rw [h]
  decide

/-- A match found after a line terminator is found by the line-start scan. -/
theorem lineStartScan_append (p : List Char → Bool) (q rest : List Char)
    (h : p rest = true) : lineStartScan p (q ++ '\n' :: rest) = true := by
  induction q with
  | nil => simp [lineStartScan, isLineTerm, h]
  | cons c q ih => simp [lineStartScan, ih]

/-- An anchored signoff attempt succeeds on any casing of the trailer
followed by content. -/
theorem signoffAt_append (T post : List Char)
    (hT : T.map Char.toLower = signoffTargetLower)
    (hp : post.dropWhile isLineTerm ≠ []) : signoffAt (T ++ post) = true := by
  have hlen : T.length = 14 := by
    have := congrArg List.length hT
    simpa using this
  unfold signoffAt
  rw [show (T ++ post).take 14 = T from by rw [← hlen]; exact List.take_left ..]
  rw [show (T ++ post).drop 14 = post from by rw [← hlen]; exact List.drop_left ..]
  simp [hT, List.isEmpty_iff, hp]

/-- Claim C8: the signoff validator matches the raw message against the
multiline case-insensitive regex; it succeeds exactly on non-empty raw text
where the regex matches, fails only with the fixed message, accepts the
trailer in any casing anywhere a line starts (also among several trailers),
and the concrete casing and footer scenarios behave as specified. -/
theorem signedOffBy_spec :
    signedOffBy none = (false, "message must be signed off") ∧
    (∀ r : String, signedOffBy (some r) = (true, "") ↔
      (r ≠ "" ∧ signoffMatches r = true)) ∧
    (∀ r : String, signedOffBy (some r) = (true, "") ∨
      signedOffBy (some r) = (false, "message must be signed off")) ∧
    (∀ (q T post : List Char),
      T.map Char.toLower = signoffTargetLower →
      (q = [] ∨ ∃ q0, q = q0 ++ ['\n']) →
      post.dropWhile isLineTerm ≠ [] →
      signedOffBy (some (String.mk (q ++ T ++ post))) = (true, "")) ∧
    signedOffBy (some "feat: add\n\nSigned-off-by: J <j@e.com>") = (true, "") ∧
    signedOffBy (some "feat: add\n\nsigned-off-by: J <j@e.com>") = (true, "") ∧
    signedOffBy (some "feat: add\n\nSIGNED-OFF-BY: J <j@e.com>") = (true, "") ∧
    signedOffBy
      (some "feat: add\n\nCo-authored-by: A <a@e.com>\nSigned-off-by: J <j@e.com>") =
      (true, "") ∧
    signedOffBy (some "feat: add\n\nregular body") =
      (false, "message must be signed off") ∧
    signedOffBy (some "") = (false, "message must be signed off") := by
  refine ⟨rfl, ?_, ?_, ?_, by decide, by decide, by decide, by decide, by decide, rfl⟩
  · intro r
    by_cases h0 : r = ""
    · simp [signedOffBy, h0]
    · by_cases h1 : signoffMatches r <;> simp [signedOffBy, h0, h1]
  · intro r
    by_cases h0 : r = ""
    · right; simp [signedOffBy, h0]
    · by_cases h1 : signoffMatches r
      · left; simp [signedOffBy, h0, h1]
      · right; simp [signedOffBy, h0, h1]
  · intro q T post hT hq hp
    have hTne : T ≠ [] := by
      intro hcontr
      rw [hcontr] at hT
      exact absurd hT.symm (by decide)
    have hne : String.mk (q ++ T ++ post) ≠ "" := by
      intro hcontr
      have hdata : q ++ T ++ post = ([] : List Char) := congrArg String.data hcontr
      rcases List.append_eq_nil.mp hdata with ⟨h1, -⟩
      exact hTne (List.append_eq_nil.mp h1).2
    have hmatch : signoffMatches (String.mk (q ++ T ++ post)) = true := by
      show anyLineStart signoffAt (q ++ T ++ post) = true
      unfold anyLineStart
      rcases hq with hq0 | ⟨q0, hq0⟩
      · subst hq0
        rw [List.nil_append, signoffAt_append T post hT hp]
        rfl
      · subst hq0
        have hassoc : q0 ++ ['\n'] ++ T ++ post = q0 ++ '\n' :: (T ++ post) := by
          simp [List.append_assoc]
        rw [hassoc, lineStartScan_append signoffAt q0 (T ++ post)
          (signoffAt_append T post hT hp)]
        simp
    have hstep : signedOffBy (some (String.mk (q ++ T ++ post))) =
        if String.mk (q ++ T ++ post) = "" then (false, "message must be signed off")
        else if signoffMatches (String.mk (q ++ T ++ post)) then ((true, "") : Bool × String)
        else (false, "message must be signed off") := rfl
    rw [hstep, if_neg hne, if_pos hmatch]

/-- Witness for C8: the universally quantified casing clause applied at the
Scenario E input (mixed casing after a blank line). -/
theorem signedOffBy_spec_witness :
    signedOffBy (some "feat: x\n\nSigned-OFF-by: A <a@x.com>") = (true, "") := by
  have h := signedOffBy_spec.2.2.2.1 ("feat: x\n\n".data) ("Signed-OFF-by:".data)
    (" A <a@x.com>".data) (by decide) (Or.inr ⟨"feat: x\n".data, by decide⟩) (by decide)
  have heq : String.mk ("feat: x\n\n".data ++ "Signed-OFF-by:".data ++ " A <a@x.com>".data) =
      "feat: x\n\nSigned-OFF-by: A <a@x.com>" := by decide
  rw [heq] at h
  exact h

/-- Instance of C2's amended theorem at concrete inputs: explicit scopes
merge with additional scopes, deduplicated and sorted. -/
theorem createConfig_scopeEnum_witness :
    List.lookup "scope-enum" (createConfig optsScopes false []).rules =
      some (RuleValue.withStrings 2 "always" ["api", "cli", "deps", "docs"]) := by
  have h := createConfig_scopeEnum optsScopes false []
  rw [h]
  decide

/-- Instance of C7's theorem at concrete inputs: the environment skip-signal
suppresses the signoff rule even when `resolved.dco` is true. -/
theorem createConfigWithEnv_dco_witness :
    List.lookup "silk/signed-off-by"
        (createConfigWithEnv true optsDcoTrue true []).rules = none ∧
    List.lookup "silk/signed-off-by"
        (createConfigWithEnv false optsDcoTrue false []).rules =
      some (RuleValue.bare 2 "always") := by
  constructor
  · have h := createConfigWithEnv_dco true optsDcoTrue true []
    rw [h]
    decide
  · have h := createConfigWithEnv_dco false optsDcoTrue false []
    rw [h]
    decide

/-- Instance of C9's iff at concrete inputs: three spans flag, two do not. -/
theorem detectMarkdown_inlineCode_iff_witness :
    ("excessive inline code (`code`)" ∈
        (detectMarkdown "Changed `foo`, `bar`, and `baz` to use `qux`.").patterns ↔
      2 < inlineCodeCount ("Changed `foo`, `bar`, and `baz` to use `qux`.").data) ∧
    ¬("excessive inline code (`code`)" ∈
        (detectMarkdown "Changed `foo` to use `bar` instead.").patterns) := by
  constructor
  · exact detectMarkdown_inlineCode_iff "Changed `foo`, `bar`, and `baz` to use `qux`."
  · rw [detectMarkdown_inlineCode_iff "Changed `foo` to use `bar` instead."]
    decide
